import Mathlib

/-!
# A shallow embedding of the `vg/recorder` package

The Go package records vector-graphics canvas calls as an ordered log of
`Action` records.  The embedding below follows `recorder.go` closely:

* Go slices are modelled explicitly as headers `(id, len, cap)` over a
  store of backing arrays, because several spec claims are about aliasing
  (`New` storing the caller's slice, defensive copies in `SetLineDash`,
  `Stroke` and `Fill`, and `Reset`'s `copy`).  `append` grows a full slice
  by reallocating, exactly as Go's `append` does; below capacity it writes
  in place.
* The recorder never computes with numbers: `float64` / `vg.Length` values
  are only stored and rendered with `%v` (and `%#v`, which coincides with
  `%v` for floats).  A Go float is therefore embedded as the opaque token
  of its rendering (`GoFloat.fmtV`).  Likewise a `color.Color` is embedded
  as the token of its `%#v` rendering.
* `runtime.Caller(3)` is ambient stack introspection; it is embedded as an
  explicit `Option (String × Int)` argument (`none` models the documented
  failure case, which Go reports as `("", 0, false)`).
* `vg.Font` is an external collaborator; the recorder only uses its
  `Name()` method and `Size` field, so it is embedded with just those.
-/

set_option maxHeartbeats 1000000

namespace Recorder

/-- A Go `float64` (also `vg.Length`), abstracted by the text of its `%v`
rendering.  The recorder stores and formats these values but never does
arithmetic on them, so the rendering token carries all the information the
program ever uses.  For floats, Go renders `%#v` identically to `%v`. -/
structure GoFloat where
  fmtV : String
deriving Repr, DecidableEq, Inhabited

/-- A Go `color.Color` interface value, abstracted by the text of its
`%#v` (Go-syntax) rendering; the recorder treats colors as opaque. -/
structure GoColor where
  goSyntax : String
deriving Repr, DecidableEq, Inhabited

/-- One `vg.PathComp` path component: a kind tag (a Go integer) and five
numeric fields, as shown by the package test's expected `%#v` dump
`vg.PathComp\x7bType:0, X:3, Y:4, Radius:0, Start:0, Angle:0\x7d`. -/
structure PathComp where
  ptype : Int
  x : GoFloat
  y : GoFloat
  radius : GoFloat
  start : GoFloat
  angle : GoFloat
deriving Repr, DecidableEq, Inhabited

/-- The `callRecorder` struct: `haveCaller`, `file`, `line`. -/
structure CallRec where
  haveCaller : Bool
  file : String
  line : Int
deriving Repr, DecidableEq, Inhabited

/-- The zero value of `callRecorder`, as in a freshly built record. -/
def CallRec.zero : CallRec := ⟨false, "", 0⟩

/-- `callRecorder.caller()`: stores the result of `runtime.Caller(3)`.
On failure Go yields `ok = false`, `file = ""`, `line = 0`. -/
def CallRec.fromSite : Option (String × Int) → CallRec
  | some fl => ⟨true, fl.1, fl.2⟩
  | none => CallRec.zero

/-- `vg.Font`, modelled with the two members the recorder uses:
the `Name()` method and the `Size` field (a `vg.Length`). -/
structure Font where
  fontName : String
  Size : GoFloat
deriving Repr, DecidableEq, Inhabited

/-- `vg.Font.Name()`. -/
def Font.Name (f : Font) : String := f.fontName

/-- A Go slice header over the store of `[]vg.Length` backing arrays
(the recorder never appends to these, so no capacity is tracked). -/
structure LenRef where
  id : Nat
  len : Nat
deriving Repr, DecidableEq, Inhabited

/-- A Go slice header over the store of `vg.Path` backing arrays. -/
structure PathRef where
  id : Nat
  len : Nat
deriving Repr, DecidableEq, Inhabited

/-- The closed set of `Action` record variants, one per `vg.Canvas`
primitive, each carrying its `cr callRecorder` field and its argument
fields in declaration order, exactly as the Go record structs do. -/
inductive Action where
  | setWidth (cr : CallRec) (width : GoFloat)
  | setLineDash (cr : CallRec) (dashes : LenRef) (offsets : GoFloat)
  | setColor (cr : CallRec) (color : GoColor)
  | rotate (cr : CallRec) (angle : GoFloat)
  | translate (cr : CallRec) (x y : GoFloat)
  | scale (cr : CallRec) (x y : GoFloat)
  | push (cr : CallRec)
  | pop (cr : CallRec)
  | stroke (cr : CallRec) (path : PathRef)
  | fill (cr : CallRec) (path : PathRef)
  | fillString (cr : CallRec) (font : String) (size x y : GoFloat) (str : String)
  | dpi (cr : CallRec)
deriving Repr, DecidableEq, Inhabited

/-- Overwrite a record's `cr` field, as `a.callRecorder().caller()` does
through the pointer returned by `callRecorder()`. -/
def Action.withCR : Action → CallRec → Action
  | .setWidth _ w, cr => .setWidth cr w
  | .setLineDash _ d o, cr => .setLineDash cr d o
  | .setColor _ c, cr => .setColor cr c
  | .rotate _ a, cr => .rotate cr a
  | .translate _ x y, cr => .translate cr x y
  | .scale _ x y, cr => .scale cr x y
  | .push _, cr => .push cr
  | .pop _, cr => .pop cr
  | .stroke _ p, cr => .stroke cr p
  | .fill _ p, cr => .fill cr p
  | .fillString _ f s x y t, cr => .fillString cr f s x y t
  | .dpi _, cr => .dpi cr

/-- The record's `cr` field. -/
def Action.cr : Action → CallRec
  | .setWidth c _ => c
  | .setLineDash c _ _ => c
  | .setColor c _ => c
  | .rotate c _ => c
  | .translate c _ _ => c
  | .scale c _ _ => c
  | .push c => c
  | .pop c => c
  | .stroke c _ => c
  | .fill c _ => c
  | .fillString c _ _ _ _ _ => c
  | .dpi c => c

/-- `callRecorder.String()`: `""` without a caller, else
`fmt.Sprintf("%s:%d ", file, line)`. -/
def CallRec.render (c : CallRec) : String :=
  if c.haveCaller then c.file ++ ":" ++ toString c.line ++ " " else ""

/-- Go `fmt`'s output for the verb `%s` applied to a `bool`. -/
def boolVerbS (b : Bool) : String :=
  if b then "%!s(bool=true)" else "%!s(bool=false)"

/-- Go `fmt`'s output for `%s` applied to a pointer to a struct whose only
field is a `callRecorder`.  `Push`, `Pop` and `DPI` pass the whole record
`a` (not `a.cr`) to `%s`; the record has no `String` method and its `cr`
field is unexported, so `fmt` falls back to the reflective struct dump
`&\x7b\x7b<bool> <file> <int>\x7d\x7d` with bad-verb markers for the bool
and int fields and single spaces between fields. -/
def CallRec.brokenRender (c : CallRec) : String :=
  "&\x7b\x7b" ++ boolVerbS c.haveCaller ++ " " ++ c.file ++ " %!s(int=" ++
    toString c.line ++ ")\x7d\x7d"

/-- Join with `", "`, as Go's `%#v` does between slice elements. -/
def sepJoin : List String → String
  | [] => ""
  | [x] => x
  | x :: xs => x ++ ", " ++ sepJoin xs

/-- `%#v` of a `[]vg.Length` value.  The record's dash slice is built by
`append([]vg.Length(nil), dashes...)`, which yields the nil slice when the
input is empty, rendered `[]vg.Length(nil)`. -/
def renderDashes (xs : List GoFloat) : String :=
  if xs.isEmpty then "[]vg.Length(nil)"
  else "[]vg.Length\x7b" ++ sepJoin (xs.map GoFloat.fmtV) ++ "\x7d"

/-- `%#v` of one `vg.PathComp`. -/
def PathComp.goSyntax (p : PathComp) : String :=
  "vg.PathComp\x7bType:" ++ toString p.ptype ++ ", X:" ++ p.x.fmtV ++
    ", Y:" ++ p.y.fmtV ++ ", Radius:" ++ p.radius.fmtV ++
    ", Start:" ++ p.start.fmtV ++ ", Angle:" ++ p.angle.fmtV ++ "\x7d"

/-- `%#v` of a `vg.Path`, nil rendered as `vg.Path(nil)`. -/
def renderPath (xs : List PathComp) : String :=
  if xs.isEmpty then "vg.Path(nil)"
  else "vg.Path\x7b" ++ sepJoin (xs.map PathComp.goSyntax) ++ "\x7d"

/-- Lower-case hexadecimal digit (`0`–`9` then `a`–`f`). -/
def hexDigit (n : Nat) : Char :=
  if n < 10 then Char.ofNat (48 + n) else Char.ofNat (87 + n)

/-- One character of Go's `%q` (`strconv.Quote`) rendering: quote and
backslash are escaped, the named control escapes are used below 0x20, and
other characters are kept (the claims only exercise printable text; Go
additionally escapes non-printable characters at and above 0x7f). -/
def goQuoteChar (c : Char) : String :=
  if c = '"' then "\\\"" else
  if c = '\\' then "\\\\" else
  if c = '\x07' then "\\a" else
  if c = '\x08' then "\\b" else
  if c = '\x0c' then "\\f" else
  if c = '\n' then "\\n" else
  if c = '\r' then "\\r" else
  if c = '\t' then "\\t" else
  if c = '\x0b' then "\\v" else
  if c.toNat < 32 then
    String.mk ['\\', 'x', hexDigit (c.toNat / 16), hexDigit (c.toNat % 16)]
  else String.singleton c

/-- Go's `%q` rendering of a string. -/
def goQuote (s : String) : String :=
  "\"" ++ String.join (s.toList.map goQuoteChar) ++ "\""

/-- A store of backing arrays, indexed by allocation order. -/
structure Store (α : Type) where
  mem : List (List α)
deriving Repr, DecidableEq

/-- The backing array with identifier `id`. -/
def Store.arr (s : Store α) (id : Nat) : List α := s.mem.getD id []

/-- Allocate a fresh backing array; returns the store and the new id. -/
def Store.alloc (s : Store α) (xs : List α) : Store α × Nat :=
  ({ mem := s.mem ++ [xs] }, s.mem.length)

/-- Replace a backing array wholesale. -/
def Store.setArr (s : Store α) (id : Nat) (xs : List α) : Store α :=
  { mem := s.mem.set id xs }

/-- Write one element of a backing array. -/
def Store.write (s : Store α) (id i : Nat) (v : α) : Store α :=
  s.setArr id ((s.arr id).set i v)

/-- The heap: backing arrays for `[]Action`, `[]vg.Length` and `vg.Path`
slices.  (Go has one heap; splitting it by element type loses nothing the
recorder can observe.) -/
structure Heap where
  acts : Store Action
  lens : Store GoFloat
  paths : Store PathComp
deriving Repr, DecidableEq

/-- The contents of a `[]vg.Length` slice. -/
def readLens (h : Heap) (r : LenRef) : List GoFloat :=
  (h.lens.arr r.id).take r.len

/-- The contents of a `vg.Path` slice. -/
def readPath (h : Heap) (r : PathRef) : List PathComp :=
  (h.paths.arr r.id).take r.len

/-- `Action.VgCall()`: the canonical rendering of a record.  Each clause
transcribes the corresponding `fmt.Sprintf` in `recorder.go`; note that
`Push`, `Pop` and `DPI` format `a` itself rather than `a.cr` under `%s`,
hence the struct-dump prefix (`CallRec.brokenRender`). -/
def Action.VgCall (h : Heap) : Action → String
  | .setWidth cr w => cr.render ++ "SetWidth(" ++ w.fmtV ++ ")"
  | .setLineDash cr ds offs =>
      cr.render ++ "SetLineDash(" ++ renderDashes (readLens h ds) ++ ", " ++
        offs.fmtV ++ ")"
  | .setColor cr col => cr.render ++ "SetColor(" ++ col.goSyntax ++ ")"
  | .rotate cr a => cr.render ++ "Rotate(" ++ a.fmtV ++ ")"
  | .translate cr x y =>
      cr.render ++ "Translate(" ++ x.fmtV ++ ", " ++ y.fmtV ++ ")"
  | .scale cr x y => cr.render ++ "Scale(" ++ x.fmtV ++ ", " ++ y.fmtV ++ ")"
  | .push cr => cr.brokenRender ++ "Push()"
  | .pop cr => cr.brokenRender ++ "Pop()"
  | .stroke cr p => cr.render ++ "Stroke(" ++ renderPath (readPath h p) ++ ")"
  | .fill cr p => cr.render ++ "Fill(" ++ renderPath (readPath h p) ++ ")"
  | .fillString cr f sz x y s =>
      cr.render ++ "FillString(" ++ goQuote f ++ ", " ++ sz.fmtV ++ ", " ++
        x.fmtV ++ ", " ++ y.fmtV ++ ", " ++ goQuote s ++ ")"
  | .dpi cr => cr.brokenRender ++ "DPI()"

/-- A `[]Action` slice header: backing array id, length and capacity. -/
structure ActSlice where
  id : Nat
  len : Nat
  cap : Nat
deriving Repr, DecidableEq, Inhabited

/-- The visible contents of a `[]Action` slice. -/
def sliceList (st : Store Action) (s : ActSlice) : List Action :=
  (st.arr s.id).take s.len

/-- Go's `append(s, v)` for a `[]Action` slice: write in place below
capacity, else reallocate.  Go grows small slices geometrically; the exact
new capacity (here: doubling, one from zero) is unobservable through the
recorder's operations. -/
def slicePush (st : Store Action) (s : ActSlice) (v : Action) :
    Store Action × ActSlice :=
  if s.len < s.cap then
    (st.write s.id s.len v, { s with len := s.len + 1 })
  else
    let newcap := if s.cap = 0 then 1 else 2 * s.cap
    let grown := (st.arr s.id).take s.len ++ [v]
    let content := grown ++ List.replicate (newcap - grown.length) default
    ((st.alloc content).1, { id := (st.alloc content).2, len := s.len + 1, cap := newcap })

/-- The `Canvas` struct: `Resolution`, `Base`, `Actions`, `KeepCaller`. -/
structure Canvas where
  Resolution : GoFloat
  Base : ActSlice
  Actions : ActSlice
  KeepCaller : Bool
deriving Repr, DecidableEq

/-- `New(dpi, base)`: stores the given slice header as both `Actions` and
`Base` (Go copies the slice header, not the elements). -/
def New (dpi : GoFloat) (base : ActSlice) : Canvas :=
  { Resolution := dpi, Base := base, Actions := base, KeepCaller := false }

/-- The record `Canvas.append` actually inserts for a builder record `a`:
stamped from the ambient call site when `KeepCaller` is set, else `a`
itself (whose `cr` the primitives leave at the zero value). -/
def stamped (c : Canvas) (site : Option (String × Int)) (a : Action) : Action :=
  if c.KeepCaller then a.withCR (CallRec.fromSite site) else a

/-- `Canvas.append(a)`: stamp the record via `runtime.Caller` when
`KeepCaller` is set (the ambient stack information is the explicit `site`
argument), then `c.Actions = append(c.Actions, a)`. -/
def Canvas.appendA (h : Heap) (c : Canvas) (site : Option (String × Int))
    (a : Action) : Heap × Canvas :=
  let p := slicePush h.acts c.Actions (stamped c site a)
  ({ h with acts := p.1 }, { c with Actions := p.2 })

/-- `Canvas.Reset()`: `c.Actions = c.Actions[:len(c.Base)]` followed by
`copy(c.Actions, c.Base)`.  The copy reads the source values first and
then writes them at offsets `0 .. len(Base)-1` of the destination's
backing array (memmove semantics). -/
def Canvas.Reset (h : Heap) (c : Canvas) : Heap × Canvas :=
  let n := c.Base.len
  let a2 : ActSlice := { c.Actions with len := n }
  let vals := (h.acts.arr c.Base.id).take n
  let st2 := h.acts.setArr a2.id (vals ++ (h.acts.arr a2.id).drop n)
  ({ h with acts := st2 }, { c with Actions := a2 })

/-- `Canvas.SetLineWidth(w)`. -/
def Canvas.SetLineWidth (h : Heap) (c : Canvas) (site : Option (String × Int))
    (w : GoFloat) : Heap × Canvas :=
  c.appendA h site (.setWidth CallRec.zero w)

/-- `Canvas.SetLineDash(dashes, offs)`: the record stores a defensive copy
`append([]vg.Length(nil), dashes...)` of the dash pattern. -/
def Canvas.SetLineDash (h : Heap) (c : Canvas) (site : Option (String × Int))
    (dashes : LenRef) (offs : GoFloat) : Heap × Canvas :=
  let vals := readLens h dashes
  let p := h.lens.alloc vals
  c.appendA { h with lens := p.1 } site
    (.setLineDash CallRec.zero ⟨p.2, vals.length⟩ offs)

/-- `Canvas.SetColor(col)`. -/
def Canvas.SetColor (h : Heap) (c : Canvas) (site : Option (String × Int))
    (col : GoColor) : Heap × Canvas :=
  c.appendA h site (.setColor CallRec.zero col)

/-- `Canvas.Rotate(a)`. -/
def Canvas.Rotate (h : Heap) (c : Canvas) (site : Option (String × Int))
    (a : GoFloat) : Heap × Canvas :=
  c.appendA h site (.rotate CallRec.zero a)

/-- `Canvas.Translate(x, y)`. -/
def Canvas.Translate (h : Heap) (c : Canvas) (site : Option (String × Int))
    (x y : GoFloat) : Heap × Canvas :=
  c.appendA h site (.translate CallRec.zero x y)

/-- `Canvas.Scale(x, y)`. -/
def Canvas.Scale (h : Heap) (c : Canvas) (site : Option (String × Int))
    (x y : GoFloat) : Heap × Canvas :=
  c.appendA h site (.scale CallRec.zero x y)

/-- `Canvas.Push()`. -/
def Canvas.Push (h : Heap) (c : Canvas) (site : Option (String × Int)) :
    Heap × Canvas :=
  c.appendA h site (.push CallRec.zero)

/-- `Canvas.Pop()`. -/
def Canvas.Pop (h : Heap) (c : Canvas) (site : Option (String × Int)) :
    Heap × Canvas :=
  c.appendA h site (.pop CallRec.zero)

/-- `Canvas.Stroke(path)`: the record stores a defensive copy
`append(vg.Path(nil), path...)` of the path. -/
def Canvas.Stroke (h : Heap) (c : Canvas) (site : Option (String × Int))
    (path : PathRef) : Heap × Canvas :=
  let vals := readPath h path
  let p := h.paths.alloc vals
  c.appendA { h with paths := p.1 } site
    (.stroke CallRec.zero ⟨p.2, vals.length⟩)

/-- `Canvas.Fill(path)`: the record stores a defensive copy of the path. -/
def Canvas.Fill (h : Heap) (c : Canvas) (site : Option (String × Int))
    (path : PathRef) : Heap × Canvas :=
  let vals := readPath h path
  let p := h.paths.alloc vals
  c.appendA { h with paths := p.1 } site
    (.fill CallRec.zero ⟨p.2, vals.length⟩)

/-- `Canvas.FillString(font, x, y, str)`: the record stores the font's
`Name()` string and `Size` value, not the font itself. -/
def Canvas.FillString (h : Heap) (c : Canvas) (site : Option (String × Int))
    (font : Font) (x y : GoFloat) (str : String) : Heap × Canvas :=
  c.appendA h site (.fillString CallRec.zero font.Name font.Size x y str)

/-- `Canvas.DPI()`: appends a `DPI` record and returns `c.Resolution`. -/
def Canvas.DPI (h : Heap) (c : Canvas) (site : Option (String × Int)) :
    Heap × Canvas × GoFloat :=
  let p := c.appendA h site (.dpi CallRec.zero)
  (p.1, p.2, c.Resolution)

/-- One canvas operation: a primitive call (with the ambient call-site
information `runtime.Caller` would report), the `DPI` query, `Reset`, or
an assignment to the `KeepCaller` flag. -/
inductive Op where
  | setLineWidth (site : Option (String × Int)) (w : GoFloat)
  | setLineDash (site : Option (String × Int)) (dashes : LenRef) (offs : GoFloat)
  | setColor (site : Option (String × Int)) (col : GoColor)
  | rotate (site : Option (String × Int)) (a : GoFloat)
  | translate (site : Option (String × Int)) (x y : GoFloat)
  | scale (site : Option (String × Int)) (x y : GoFloat)
  | push (site : Option (String × Int))
  | pop (site : Option (String × Int))
  | stroke (site : Option (String × Int)) (path : PathRef)
  | fill (site : Option (String × Int)) (path : PathRef)
  | fillString (site : Option (String × Int)) (f : Font) (x y : GoFloat) (str : String)
  | dpiQuery (site : Option (String × Int))
  | reset
  | setKeepCaller (b : Bool)
deriving Repr, DecidableEq

/-- The state-transition function: run one operation on heap and canvas
(the `DPI` query's return value is dropped here; `Canvas.DPI` exposes it). -/
def step (s : Heap × Canvas) : Op → Heap × Canvas
  | .setLineWidth site w => Canvas.SetLineWidth s.1 s.2 site w
  | .setLineDash site d o => Canvas.SetLineDash s.1 s.2 site d o
  | .setColor site col => Canvas.SetColor s.1 s.2 site col
  | .rotate site a => Canvas.Rotate s.1 s.2 site a
  | .translate site x y => Canvas.Translate s.1 s.2 site x y
  | .scale site x y => Canvas.Scale s.1 s.2 site x y
  | .push site => Canvas.Push s.1 s.2 site
  | .pop site => Canvas.Pop s.1 s.2 site
  | .stroke site p => Canvas.Stroke s.1 s.2 site p
  | .fill site p => Canvas.Fill s.1 s.2 site p
  | .fillString site f x y str => Canvas.FillString s.1 s.2 site f x y str
  | .dpiQuery site => ((Canvas.DPI s.1 s.2 site).1, (Canvas.DPI s.1 s.2 site).2.1)
  | .reset => Canvas.Reset s.1 s.2
  | .setKeepCaller b => (s.1, { s.2 with KeepCaller := b })

/-- Run a sequence of operations. -/
def runOps (s : Heap × Canvas) (ops : List Op) : Heap × Canvas :=
  ops.foldl step s

/-- The visible contents of the `Actions` log. -/
def logList (h : Heap) (c : Canvas) : List Action :=
  sliceList h.acts c.Actions

/-- The visible contents of the `Base` slice. -/
def baseList (h : Heap) (c : Canvas) : List Action :=
  sliceList h.acts c.Base

/-- Well-formedness of a heap/canvas pair: the two `[]Action` headers
refer to allocated arrays whose physical size is the header capacity,
lengths are within capacities, the base is no longer than the log, and
the log's first `len(Base)` elements coincide with `Base` — the state of
affairs `New` establishes and every operation preserves. -/
abbrev WF (h : Heap) (c : Canvas) : Prop :=
  c.Actions.id < h.acts.mem.length ∧
  c.Base.id < h.acts.mem.length ∧
  (h.acts.arr c.Actions.id).length = c.Actions.cap ∧
  (h.acts.arr c.Base.id).length = c.Base.cap ∧
  c.Actions.len ≤ c.Actions.cap ∧
  c.Base.len ≤ c.Base.cap ∧
  c.Base.len ≤ c.Actions.len ∧
  (logList h c).take c.Base.len = baseList h c

/-! ## Concrete example states (used by witnesses and counterexamples) -/

/-- A baseline record: `Rotate\x7bAngle: 0.72\x7d` with no stamp. -/
def exRotate : Action := Action.rotate CallRec.zero ⟨"0.72"⟩

/-- A different record, used as the value a caller writes into their slice. -/
def exScale : Action := Action.scale CallRec.zero ⟨"1"⟩ ⟨"2"⟩

/-- A heap with one single-slot `[]Action` backing array holding the
baseline record (a caller literal `[]Action\x7b...\x7d`: len = cap). -/
def exHeap : Heap := { acts := ⟨[[exRotate]]⟩, lens := ⟨[]⟩, paths := ⟨[]⟩ }

/-- One `vg.PathComp` with kind `vg.MoveComp` and `x = 3`, `y = 4`,
matching the package test's path. -/
def exComp : PathComp :=
  { ptype := 0, x := ⟨"3"⟩, y := ⟨"4"⟩, radius := ⟨"0"⟩, start := ⟨"0"⟩,
    angle := ⟨"0"⟩ }

/-- A heap whose `[]Action` backing array has one live slot and one slot
of spare capacity (a caller slice with `cap > len`), plus one caller-owned
dash array and one caller-owned path array. -/
def exHeap2 : Heap :=
  { acts := ⟨[[exRotate, exRotate]]⟩, lens := ⟨[[⟨"5"⟩]]⟩,
    paths := ⟨[[exComp]]⟩ }

/-- A heap with one empty `[]Action` backing array. -/
def exHeap0 : Heap := { acts := ⟨[[]]⟩, lens := ⟨[]⟩, paths := ⟨[]⟩ }

/-- The slice header of the one-record baseline in `exHeap`. -/
def exBase1 : ActSlice := ⟨0, 1, 1⟩

/-- The slice header of the baseline with spare capacity in `exHeap2`. -/
def exBase12 : ActSlice := ⟨0, 1, 2⟩

/-- An empty baseline slice header for `exHeap0`. -/
def exBase0 : ActSlice := ⟨0, 0, 0⟩

/-- A recorder over `exHeap`'s one-record baseline at 72 DPI. -/
def exCanvas : Canvas := New ⟨"72"⟩ exBase1

/-- A recorder over `exHeap2`'s spare-capacity baseline at 72 DPI. -/
def exCanvas2 : Canvas := New ⟨"72"⟩ exBase12

/-- A recorder over `exHeap0`'s empty baseline at 72 DPI. -/
def exCanvas0 : Canvas := New ⟨"72"⟩ exBase0

/-- A caller-owned dash slice over `exHeap2`'s one dash array. -/
def exDash : LenRef := ⟨0, 1⟩

/-- A caller-owned path slice over `exHeap2`'s one path array. -/
def exPath : PathRef := ⟨0, 1⟩

/-- A dash offset argument. -/
def exOffs : GoFloat := ⟨"7"⟩

/-! ## Helper lemmas: list reads, the store, and `slicePush` -/

theorem getD_set_self {α : Type} :
    ∀ (l : List α) (i : Nat) (v d : α), i < l.length →
      (l.set i v).getD i d = v
  | [], i, _, _, h => by cases h
  | _ :: _, 0, _, _, _ => rfl
  | _ :: xs, i + 1, v, d, h =>
      getD_set_self xs i v d (Nat.lt_of_succ_lt_succ h)

theorem getD_set_ne {α : Type} :
    ∀ (l : List α) (i j : Nat) (v d : α), j ≠ i →
      (l.set i v).getD j d = l.getD j d
  | [], _, _, _, _, _ => rfl
  | _ :: _, 0, 0, _, _, h => absurd rfl h
  | _ :: _, 0, _ + 1, _, _, _ => rfl
  | _ :: _, _ + 1, 0, _, _, _ => rfl
  | _ :: xs, i + 1, j + 1, v, d, h =>
      getD_set_ne xs i j v d (fun e => h (congrArg Nat.succ e))

theorem getD_append_lt {α : Type} :
    ∀ (l l2 : List α) (i : Nat) (d : α), i < l.length →
      (l ++ l2).getD i d = l.getD i d
  | [], _, i, _, h => by cases h
  | _ :: _, _, 0, _, _ => rfl
  | _ :: xs, l2, i + 1, d, h =>
      getD_append_lt xs l2 i d (Nat.lt_of_succ_lt_succ h)

theorem getD_concat_self {α : Type} :
    ∀ (l : List α) (x : α) (d : α), (l ++ [x]).getD l.length d = x
  | [], _, _ => rfl
  | _ :: xs, x, d => getD_concat_self xs x d

theorem getD_take_lt {α : Type} :
    ∀ (l : List α) (n i : Nat) (d : α), i < n →
      (l.take n).getD i d = l.getD i d
  | [], _, _, _, _ => by simp [List.take_nil]
  | _ :: _, 0, _, _, h => by cases h
  | _ :: _, _ + 1, 0, _, _ => rfl
  | _ :: xs, n + 1, i + 1, d, h =>
      getD_take_lt xs n i d (Nat.lt_of_succ_lt_succ h)

theorem take_set_of_le {α : Type} :
    ∀ (l : List α) (i n : Nat) (v : α), n ≤ i →
      (l.set i v).take n = l.take n
  | [], _, _, _, _ => rfl
  | _ :: _, _, 0, _, _ => rfl
  | _ :: _, 0, _ + 1, _, h => by cases h
  | x :: xs, i + 1, n + 1, v, h => by
      simp only [List.set, List.take]
      exact congrArg (x :: ·) (take_set_of_le xs i n v (Nat.le_of_succ_le_succ h))

theorem take_succ_set {α : Type} :
    ∀ (l : List α) (i : Nat) (v : α), i < l.length →
      (l.set i v).take (i + 1) = l.take i ++ [v]
  | [], i, _, h => by cases h
  | _ :: _, 0, _, _ => rfl
  | x :: xs, i + 1, v, h => by
      simp only [List.set, List.take, List.cons_append]
      exact congrArg (x :: ·) (take_succ_set xs i v (Nat.lt_of_succ_lt_succ h))

theorem Store.length_setArr {α : Type} (s : Store α) (id : Nat) (xs : List α) :
    (s.setArr id xs).mem.length = s.mem.length := by
  simp [Store.setArr]

theorem Store.length_alloc {α : Type} (s : Store α) (xs : List α) :
    (s.alloc xs).1.mem.length = s.mem.length + 1 := by
  simp [Store.alloc]

theorem Store.arr_setArr_self {α : Type} (s : Store α) (id : Nat) (xs : List α)
    (h : id < s.mem.length) : (s.setArr id xs).arr id = xs := by
  simp only [Store.setArr, Store.arr]
  exact getD_set_self s.mem id xs [] h

theorem Store.arr_setArr_ne {α : Type} (s : Store α) (id j : Nat) (xs : List α)
    (h : j ≠ id) : (s.setArr id xs).arr j = s.arr j := by
  simp only [Store.setArr, Store.arr]
  exact getD_set_ne s.mem id j xs [] h

theorem Store.arr_alloc_old {α : Type} (s : Store α) (xs : List α) (j : Nat)
    (h : j < s.mem.length) : (s.alloc xs).1.arr j = s.arr j := by
  simp only [Store.alloc, Store.arr]
  exact getD_append_lt s.mem [xs] j [] h

theorem Store.arr_alloc_new {α : Type} (s : Store α) (xs : List α) :
    (s.alloc xs).1.arr (s.alloc xs).2 = xs := by
  simp only [Store.alloc, Store.arr]
  exact getD_concat_self s.mem xs []

theorem length_sliceList (st : Store Action) (s : ActSlice)
    (hphys : (st.arr s.id).length = s.cap) (hlen : s.len ≤ s.cap) :
    (sliceList st s).length = s.len := by
  simp only [sliceList, List.length_take, hphys]
  exact Nat.min_eq_left (hlen.trans_eq rfl) |>.trans rfl |>.symm ▸ Nat.min_eq_left hlen

theorem slicePush_memLength (st : Store Action) (s : ActSlice) (v : Action) :
    st.mem.length ≤ (slicePush st s v).1.mem.length := by
  by_cases hlt : s.len < s.cap
  · simp only [slicePush, if_pos hlt, Store.write]
    exact Nat.le_of_eq (Store.length_setArr st s.id _).symm
  · simp only [slicePush, if_neg hlt]
    rw [Store.length_alloc]
    exact Nat.le_succ _

theorem slicePush_id_lt (st : Store Action) (s : ActSlice) (v : Action)
    (hid : s.id < st.mem.length) :
    (slicePush st s v).2.id < (slicePush st s v).1.mem.length := by
  by_cases hlt : s.len < s.cap
  · simp only [slicePush, if_pos hlt, Store.write]
    rw [Store.length_setArr]
    exact hid
  · simp only [slicePush, if_neg hlt]
    rw [Store.length_alloc]
    exact Nat.lt_succ_self _

theorem slicePush_arr_other (st : Store Action) (s : ActSlice) (v : Action)
    (j : Nat) (hj : j < st.mem.length) (hne : j ≠ s.id) :
    (slicePush st s v).1.arr j = st.arr j := by
  by_cases hlt : s.len < s.cap
  · simp only [slicePush, if_pos hlt, Store.write]
    exact Store.arr_setArr_ne st s.id j _ hne
  · simp only [slicePush, if_neg hlt]
    exact Store.arr_alloc_old st _ j hj

theorem slicePush_take_other (st : Store Action) (s : ActSlice) (v : Action)
    (j n : Nat) (hj : j < st.mem.length) (hn : n ≤ s.len) :
    ((slicePush st s v).1.arr j).take n = (st.arr j).take n := by
  by_cases hlt : s.len < s.cap
  · simp only [slicePush, if_pos hlt, Store.write]
    by_cases hje : j = s.id
    · rw [hje, Store.arr_setArr_self st s.id _ (hje ▸ hj)]
      exact take_set_of_le _ s.len n v hn
    · rw [Store.arr_setArr_ne st s.id j _ hje]
  · simp only [slicePush, if_neg hlt]
    rw [Store.arr_alloc_old st _ j hj]

theorem slicePush_length_arr (st : Store Action) (s : ActSlice) (v : Action)
    (j : Nat) (hj : j < st.mem.length) :
    ((slicePush st s v).1.arr j).length = (st.arr j).length := by
  by_cases hlt : s.len < s.cap
  · simp only [slicePush, if_pos hlt, Store.write]
    by_cases hje : j = s.id
    · rw [hje, Store.arr_setArr_self st s.id _ (hje ▸ hj), List.length_set]
    · rw [Store.arr_setArr_ne st s.id j _ hje]
  · simp only [slicePush, if_neg hlt]
    rw [Store.arr_alloc_old st _ j hj]

theorem slicePush_header (st : Store Action) (s : ActSlice) (v : Action) :
    (slicePush st s v).2.len = s.len + 1 := by
  by_cases hlt : s.len < s.cap
  · simp only [slicePush, if_pos hlt]
  · simp only [slicePush, if_neg hlt]

theorem slicePush_phys (st : Store Action) (s : ActSlice) (v : Action)
    (hid : s.id < st.mem.length) (hphys : (st.arr s.id).length = s.cap)
    (hlen : s.len ≤ s.cap) :
    ((slicePush st s v).1.arr (slicePush st s v).2.id).length
      = (slicePush st s v).2.cap := by
  by_cases hlt : s.len < s.cap
  · simp only [slicePush, if_pos hlt, Store.write]
    rw [Store.arr_setArr_self st s.id _ hid, List.length_set]
    exact hphys
  · have hcap : s.len = s.cap := Nat.le_antisymm hlen (Nat.le_of_not_lt hlt)
    simp only [slicePush, if_neg hlt, Store.arr_alloc_new]
    have hg : ((st.arr s.id).take s.len ++ [v]).length = s.len + 1 := by
      simp [List.length_take, hphys, hcap]
    rw [List.length_append, List.length_replicate, hg]
    have hle : s.len + 1 ≤ if s.cap = 0 then 1 else 2 * s.cap := by
      by_cases h0 : s.cap = 0
      · simp [h0, hcap]
      · have h1 : 1 ≤ s.cap := Nat.one_le_iff_ne_zero.mpr h0
        simp only [if_neg h0]
        calc s.len + 1 = s.cap + 1 := by rw [hcap]
        _ ≤ s.cap + s.cap := by exact Nat.add_le_add_left h1 _
        _ = 2 * s.cap := by ring
    exact Nat.add_sub_cancel' hle

theorem slicePush_len_le_cap (st : Store Action) (s : ActSlice) (v : Action)
    (hlen : s.len ≤ s.cap) :
    (slicePush st s v).2.len ≤ (slicePush st s v).2.cap := by
  by_cases hlt : s.len < s.cap
  · simpa only [slicePush, if_pos hlt] using hlt
  · have hcap : s.len = s.cap := Nat.le_antisymm hlen (Nat.le_of_not_lt hlt)
    simp only [slicePush, if_neg hlt]
    by_cases h0 : s.cap = 0
    · simp [h0, hcap]
    · have h1 : 1 ≤ s.cap := Nat.one_le_iff_ne_zero.mpr h0
      simp only [if_neg h0]
      calc s.len + 1 = s.cap + 1 := by rw [hcap]
      _ ≤ s.cap + s.cap := by exact Nat.add_le_add_left h1 _
      _ = 2 * s.cap := by ring

theorem slicePush_sliceList (st : Store Action) (s : ActSlice) (v : Action)
    (hid : s.id < st.mem.length) (hphys : (st.arr s.id).length = s.cap)
    (hlen : s.len ≤ s.cap) :
    sliceList (slicePush st s v).1 (slicePush st s v).2
      = sliceList st s ++ [v] := by
  by_cases hlt : s.len < s.cap
  · simp only [slicePush, if_pos hlt, Store.write, sliceList]
    rw [Store.arr_setArr_self st s.id _ hid]
    exact take_succ_set _ s.len v (hphys ▸ hlt)
  · have hcap : s.len = s.cap := Nat.le_antisymm hlen (Nat.le_of_not_lt hlt)
    simp only [slicePush, if_neg hlt, sliceList, Store.arr_alloc_new]
    have hg : ((st.arr s.id).take s.len ++ [v]).length = s.len + 1 := by
      simp [List.length_take, hphys, hcap]
    rw [List.take_append_of_le_length (Nat.le_of_eq hg.symm),
      List.take_of_length_le (Nat.le_of_eq hg)]

/-! ## Preservation lemmas for `append`, `Reset`, and `step` -/

theorem appendA_canvas (h : Heap) (c : Canvas) (site : Option (String × Int))
    (a : Action) :
    (c.appendA h site a).2.Base = c.Base ∧
    (c.appendA h site a).2.Resolution = c.Resolution ∧
    (c.appendA h site a).2.KeepCaller = c.KeepCaller := by
  exact ⟨rfl, rfl, rfl⟩

theorem appendA_acts (h : Heap) (c : Canvas) (site : Option (String × Int))
    (a : Action) :
    (c.appendA h site a).1.acts
      = (slicePush h.acts c.Actions (stamped c site a)).1 := rfl

theorem appendA_logList (h : Heap) (c : Canvas) (site : Option (String × Int))
    (a : Action) (hwf : WF h c) :
    logList (c.appendA h site a).1 (c.appendA h site a).2
      = logList h c ++ [stamped c site a] := by
  obtain ⟨h1, h2, h3, h4, h5, h6, h7, h8⟩ := hwf
  exact slicePush_sliceList h.acts c.Actions (stamped c site a) h1 h3 h5

theorem appendA_baseList (h : Heap) (c : Canvas) (site : Option (String × Int))
    (a : Action) (hwf : WF h c) :
    baseList (c.appendA h site a).1 (c.appendA h site a).2 = baseList h c := by
  obtain ⟨h1, h2, h3, h4, h5, h6, h7, h8⟩ := hwf
  exact slicePush_take_other h.acts c.Actions (stamped c site a)
    c.Base.id c.Base.len h2 h7

theorem WF_appendA (h : Heap) (c : Canvas) (site : Option (String × Int))
    (a : Action) (hwf : WF h c) :
    WF (c.appendA h site a).1 (c.appendA h site a).2 := by
  obtain ⟨h1, h2, h3, h4, h5, h6, h7, h8⟩ := hwf
  refine ⟨?_, ?_, ?_, ?_, ?_, ?_, ?_, ?_⟩
  · exact slicePush_id_lt h.acts c.Actions (stamped c site a) h1
  · exact Nat.lt_of_lt_of_le h2 (slicePush_memLength h.acts c.Actions _)
  · exact slicePush_phys h.acts c.Actions (stamped c site a) h1 h3 h5
  · show ((slicePush h.acts c.Actions (stamped c site a)).1.arr c.Base.id).length
      = c.Base.cap
    rw [slicePush_length_arr h.acts c.Actions (stamped c site a) c.Base.id h2]
    exact h4
  · exact slicePush_len_le_cap h.acts c.Actions (stamped c site a) h5
  · exact h6
  · show c.Base.len ≤ (slicePush h.acts c.Actions (stamped c site a)).2.len
    rw [slicePush_header h.acts c.Actions (stamped c site a)]
    exact Nat.le_succ_of_le h7
  · rw [show (c.appendA h site a).2.Base = c.Base from rfl,
      appendA_logList h c site a ⟨h1, h2, h3, h4, h5, h6, h7, h8⟩,
      appendA_baseList h c site a ⟨h1, h2, h3, h4, h5, h6, h7, h8⟩]
    have hlog : (logList h c).length = c.Actions.len :=
      length_sliceList h.acts c.Actions h3 h5
    rw [List.take_append_of_le_length (hlog ▸ h7)]
    exact h8

theorem reset_canvas (h : Heap) (c : Canvas) :
    (Canvas.Reset h c).2.Base = c.Base ∧
    (Canvas.Reset h c).2.Resolution = c.Resolution ∧
    (Canvas.Reset h c).2.KeepCaller = c.KeepCaller ∧
    (Canvas.Reset h c).2.Actions
      = { id := c.Actions.id, len := c.Base.len, cap := c.Actions.cap } := by
  exact ⟨rfl, rfl, rfl, rfl⟩

theorem reset_arr_base (h : Heap) (c : Canvas) (hwf : WF h c) :
    (Canvas.Reset h c).1.acts.arr c.Base.id = h.acts.arr c.Base.id := by
  obtain ⟨h1, h2, h3, h4, h5, h6, h7, h8⟩ := hwf
  by_cases hje : c.Base.id = c.Actions.id
  · have harr : h.acts.arr c.Actions.id = h.acts.arr c.Base.id := by rw [hje]
    simp only [Canvas.Reset]
    rw [hje, Store.arr_setArr_self _ _ _ h1, harr, List.take_append_drop]
  · simp only [Canvas.Reset]
    exact Store.arr_setArr_ne _ _ _ _ hje

theorem reset_baseList (h : Heap) (c : Canvas) (hwf : WF h c) :
    baseList (Canvas.Reset h c).1 (Canvas.Reset h c).2 = baseList h c := by
  simp only [baseList, sliceList]
  rw [show (Canvas.Reset h c).2.Base = c.Base from rfl, reset_arr_base h c hwf]

theorem reset_logList (h : Heap) (c : Canvas) (hwf : WF h c) :
    logList (Canvas.Reset h c).1 (Canvas.Reset h c).2 = baseList h c := by
  obtain ⟨h1, h2, h3, h4, h5, h6, h7, h8⟩ := hwf
  have hvals : ((h.acts.arr c.Base.id).take c.Base.len).length = c.Base.len := by
    simp [List.length_take, h4]
    exact h6
  simp only [logList, sliceList, Canvas.Reset]
  rw [Store.arr_setArr_self _ _ _ h1,
    List.take_append_of_le_length (Nat.le_of_eq hvals.symm),
    List.take_of_length_le (Nat.le_of_eq hvals)]
  rfl

theorem WF_reset (h : Heap) (c : Canvas) (hwf : WF h c) :
    WF (Canvas.Reset h c).1 (Canvas.Reset h c).2 := by
  obtain ⟨h1, h2, h3, h4, h5, h6, h7, h8⟩ := hwf
  have hvals : ((h.acts.arr c.Base.id).take c.Base.len).length = c.Base.len := by
    simp [List.length_take, h4]
    exact h6
  have hmem : (Canvas.Reset h c).1.acts.mem.length = h.acts.mem.length := by
    simp only [Canvas.Reset]
    exact Store.length_setArr _ _ _
  refine ⟨?_, ?_, ?_, ?_, ?_, ?_, ?_, ?_⟩
  · rw [hmem]; exact h1
  · rw [hmem]; exact h2
  · simp only [Canvas.Reset]
    rw [Store.arr_setArr_self _ _ _ h1, List.length_append, hvals,
      List.length_drop, h3]
    exact Nat.add_sub_cancel' (Nat.le_trans h7 h5)
  · rw [show (Canvas.Reset h c).2.Base = c.Base from rfl,
      reset_arr_base h c ⟨h1, h2, h3, h4, h5, h6, h7, h8⟩]
    exact h4
  · exact Nat.le_trans h7 h5
  · exact h6
  · exact Nat.le_refl _
  · rw [show (Canvas.Reset h c).2.Base = c.Base from rfl,
      reset_logList h c ⟨h1, h2, h3, h4, h5, h6, h7, h8⟩,
      reset_baseList h c ⟨h1, h2, h3, h4, h5, h6, h7, h8⟩]
    have hb : (baseList h c).length = c.Base.len := length_sliceList _ _ h4 h6
    exact List.take_of_length_le (Nat.le_of_eq hb)

theorem step_frame (s : Heap × Canvas) (op : Op) :
    (step s op).2.Base = s.2.Base ∧
    (step s op).2.Resolution = s.2.Resolution := by
  obtain ⟨h, c⟩ := s
  cases op <;> exact ⟨rfl, rfl⟩

theorem step_keepCaller (s : Heap × Canvas) (op : Op)
    (hop : ∀ b, op ≠ Op.setKeepCaller b) :
    (step s op).2.KeepCaller = s.2.KeepCaller := by
  obtain ⟨h, c⟩ := s
  cases op with
  | setKeepCaller b => exact absurd rfl (hop b)
  | setLineWidth site w => rfl
  | setLineDash site d o => rfl
  | setColor site col => rfl
  | rotate site a => rfl
  | translate site x y => rfl
  | scale site x y => rfl
  | push site => rfl
  | pop site => rfl
  | stroke site p => rfl
  | fill site p => rfl
  | fillString site f x y str => rfl
  | dpiQuery site => rfl
  | reset => rfl

theorem WF_step (s : Heap × Canvas) (op : Op) (hwf : WF s.1 s.2) :
    WF (step s op).1 (step s op).2 := by
  obtain ⟨h, c⟩ := s
  cases op with
  | setKeepCaller b => exact hwf
  | reset => exact WF_reset h c hwf
  | setLineWidth site w => exact WF_appendA h c site _ hwf
  | setLineDash site d o =>
      exact WF_appendA { h with lens := (h.lens.alloc (readLens h d)).1 } c site _ hwf
  | setColor site col => exact WF_appendA h c site _ hwf
  | rotate site a => exact WF_appendA h c site _ hwf
  | translate site x y => exact WF_appendA h c site _ hwf
  | scale site x y => exact WF_appendA h c site _ hwf
  | push site => exact WF_appendA h c site _ hwf
  | pop site => exact WF_appendA h c site _ hwf
  | stroke site p =>
      exact WF_appendA { h with paths := (h.paths.alloc (readPath h p)).1 } c site _ hwf
  | fill site p =>
      exact WF_appendA { h with paths := (h.paths.alloc (readPath h p)).1 } c site _ hwf
  | fillString site f x y str => exact WF_appendA h c site _ hwf
  | dpiQuery site => exact WF_appendA h c site _ hwf

theorem step_baseList (s : Heap × Canvas) (op : Op) (hwf : WF s.1 s.2) :
    baseList (step s op).1 (step s op).2 = baseList s.1 s.2 := by
  obtain ⟨h, c⟩ := s
  cases op with
  | setKeepCaller b => rfl
  | reset => exact reset_baseList h c hwf
  | setLineWidth site w => exact appendA_baseList h c site _ hwf
  | setLineDash site d o =>
      exact appendA_baseList { h with lens := (h.lens.alloc (readLens h d)).1 } c site _ hwf
  | setColor site col => exact appendA_baseList h c site _ hwf
  | rotate site a => exact appendA_baseList h c site _ hwf
  | translate site x y => exact appendA_baseList h c site _ hwf
  | scale site x y => exact appendA_baseList h c site _ hwf
  | push site => exact appendA_baseList h c site _ hwf
  | pop site => exact appendA_baseList h c site _ hwf
  | stroke site p =>
      exact appendA_baseList { h with paths := (h.paths.alloc (readPath h p)).1 } c site _ hwf
  | fill site p =>
      exact appendA_baseList { h with paths := (h.paths.alloc (readPath h p)).1 } c site _ hwf
  | fillString site f x y str => exact appendA_baseList h c site _ hwf
  | dpiQuery site => exact appendA_baseList h c site _ hwf

theorem step_logList_shape (s : Heap × Canvas) (op : Op) (hwf : WF s.1 s.2) :
    logList (step s op).1 (step s op).2 = logList s.1 s.2
    ∨ (∃ a, logList (step s op).1 (step s op).2 = logList s.1 s.2 ++ [a])
    ∨ logList (step s op).1 (step s op).2 = baseList s.1 s.2 := by
  obtain ⟨h, c⟩ := s
  cases op with
  | setKeepCaller b => exact Or.inl rfl
  | reset => exact Or.inr (Or.inr (reset_logList h c hwf))
  | setLineWidth site w =>
      exact Or.inr (Or.inl ⟨_, appendA_logList h c site _ hwf⟩)
  | setLineDash site d o =>
      exact Or.inr (Or.inl ⟨_,
        appendA_logList { h with lens := (h.lens.alloc (readLens h d)).1 } c site _ hwf⟩)
  | setColor site col =>
      exact Or.inr (Or.inl ⟨_, appendA_logList h c site _ hwf⟩)
  | rotate site a =>
      exact Or.inr (Or.inl ⟨_, appendA_logList h c site _ hwf⟩)
  | translate site x y =>
      exact Or.inr (Or.inl ⟨_, appendA_logList h c site _ hwf⟩)
  | scale site x y =>
      exact Or.inr (Or.inl ⟨_, appendA_logList h c site _ hwf⟩)
  | push site =>
      exact Or.inr (Or.inl ⟨_, appendA_logList h c site _ hwf⟩)
  | pop site =>
      exact Or.inr (Or.inl ⟨_, appendA_logList h c site _ hwf⟩)
  | stroke site p =>
      exact Or.inr (Or.inl ⟨_,
        appendA_logList { h with paths := (h.paths.alloc (readPath h p)).1 } c site _ hwf⟩)
  | fill site p =>
      exact Or.inr (Or.inl ⟨_,
        appendA_logList { h with paths := (h.paths.alloc (readPath h p)).1 } c site _ hwf⟩)
  | fillString site f x y str =>
      exact Or.inr (Or.inl ⟨_, appendA_logList h c site _ hwf⟩)
  | dpiQuery site =>
      exact Or.inr (Or.inl ⟨_, appendA_logList h c site _ hwf⟩)

theorem WF_runOps (ops : List Op) (s : Heap × Canvas) (hwf : WF s.1 s.2) :
    WF (runOps s ops).1 (runOps s ops).2 := by
  induction ops generalizing s with
  | nil => exact hwf
  | cons op ops ih =>
      rw [runOps, List.foldl_cons]
      exact ih (step s op) (WF_step s op hwf)

theorem runOps_baseList (ops : List Op) (s : Heap × Canvas) (hwf : WF s.1 s.2) :
    baseList (runOps s ops).1 (runOps s ops).2 = baseList s.1 s.2 ∧
    (runOps s ops).2.Base = s.2.Base := by
  induction ops generalizing s with
  | nil => exact ⟨rfl, rfl⟩
  | cons op ops ih =>
      rw [runOps, List.foldl_cons]
      obtain ⟨hb, hh⟩ := ih (step s op) (WF_step s op hwf)
      refine ⟨?_, ?_⟩
      · show baseList (runOps (step s op) ops).1 (runOps (step s op) ops).2
          = baseList s.1 s.2
        rw [hb]
        exact step_baseList s op hwf
      · show (runOps (step s op) ops).2.Base = s.2.Base
        rw [hh]
        exact (step_frame s op).1

/-! ## Claims -/

/-- Claim C1: every record should render as `<prefix><Name>(<args>)` with
an empty prefix when no call-site stamp is carried; in particular unstamped
`Push`, `Pop` and `DPI` records should render as exactly `Push()`, `Pop()`
and `DPI()`.  The code violates this: their `VgCall` passes the record
itself (not its `callRecorder`) to the `%s` verb, so they render with a
reflective struct-dump prefix.  This theorem evaluates `Action.VgCall` at
the failing inputs (and, for contrast, at a well-behaved variant). -/
theorem c1_push_pop_dpi_rendering_bug :
    (Action.push CallRec.zero).VgCall exHeap0
        = "&\x7b\x7b%!s(bool=false)  %!s(int=0)\x7d\x7dPush()"
    ∧ (Action.pop CallRec.zero).VgCall exHeap0
        = "&\x7b\x7b%!s(bool=false)  %!s(int=0)\x7d\x7dPop()"
    ∧ (Action.dpi CallRec.zero).VgCall exHeap0
        = "&\x7b\x7b%!s(bool=false)  %!s(int=0)\x7d\x7dDPI()"
    ∧ (Action.push CallRec.zero).VgCall exHeap0 ≠ "Push()"
    ∧ (Action.pop CallRec.zero).VgCall exHeap0 ≠ "Pop()"
    ∧ (Action.dpi CallRec.zero).VgCall exHeap0 ≠ "DPI()"
    ∧ (Action.setWidth CallRec.zero ⟨"0.5"⟩).VgCall exHeap0 = "SetWidth(0.5)"
    ∧ (Action.fillString CallRec.zero "Foo" ⟨"12"⟩ ⟨"0"⟩ ⟨"10"⟩ "Bar").VgCall
        exHeap0 = "FillString(\"Foo\", 12, 0, 10, \"Bar\")" := by
  decide

/-- Claim C2 (amended): `New(dpi, baseline)` stores `dpi` as the
resolution and stores the caller's baseline slice itself — uncopied — as
both `Base` and the initial log, so the canvas aliases the caller-owned
slice: a caller writing an element of their slice after construction
changes `base` and the log's initial prefix. -/
theorem c2_new_aliases_baseline (dpi : GoFloat) (b : ActSlice) (h : Heap)
    (i : Nat) (v : Action) (hb : b.id < h.acts.mem.length)
    (hi : i < b.len) (hphys : i < (h.acts.arr b.id).length) :
    (New dpi b).Resolution = dpi ∧ (New dpi b).Base = b ∧
    (New dpi b).Actions = b ∧ (New dpi b).KeepCaller = false ∧
    (baseList { h with acts := h.acts.write b.id i v } (New dpi b)).getD i
      default = v ∧
    (logList { h with acts := h.acts.write b.id i v } (New dpi b)).getD i
      default = v := by
  have key : (((h.acts.write b.id i v).arr b.id).take b.len).getD i default
      = v := by
    have harr : (h.acts.write b.id i v).arr b.id
        = (h.acts.arr b.id).set i v := by
      simp only [Store.write]
      exact Store.arr_setArr_self _ _ _ hb
    rw [harr, getD_take_lt _ b.len i default hi]
    exact getD_set_self _ i v default hphys
  exact ⟨rfl, rfl, rfl, rfl, key, key⟩

/-- Witness for the amended C2 at a concrete input: the hypotheses hold for
`exHeap`'s one-record baseline, and the conclusion follows by applying the
theorem there. -/
theorem c2_new_aliases_baseline_witness :
    (exBase1.id < exHeap.acts.mem.length ∧ 0 < exBase1.len ∧
      0 < (exHeap.acts.arr exBase1.id).length) ∧
    ((New ⟨"72"⟩ exBase1).Resolution = ⟨"72"⟩ ∧
      (New ⟨"72"⟩ exBase1).Base = exBase1 ∧
      (New ⟨"72"⟩ exBase1).Actions = exBase1 ∧
      (New ⟨"72"⟩ exBase1).KeepCaller = false ∧
      (baseList { exHeap with acts := exHeap.acts.write exBase1.id 0 exScale }
        (New ⟨"72"⟩ exBase1)).getD 0 default = exScale ∧
      (logList { exHeap with acts := exHeap.acts.write exBase1.id 0 exScale }
        (New ⟨"72"⟩ exBase1)).getD 0 default = exScale) :=
  ⟨⟨by decide, by decide, by decide⟩,
    c2_new_aliases_baseline ⟨"72"⟩ exBase1 exHeap 0 exScale (by decide)
      (by decide) (by decide)⟩

/-- Claim C2 counterexample: the claim says the construction-time copy is
defensive, so a caller mutating their slice cannot change `base` or the
log.  Concretely: construct over `exHeap`'s one-record baseline, then let
the caller overwrite their slice's element 0 with a different record; both
`base` and the log's first element now read back the new record. -/
theorem c2_defensive_copy_counterexample :
    baseList { exHeap with acts := exHeap.acts.write 0 0 exScale } exCanvas
        = [exScale]
    ∧ logList { exHeap with acts := exHeap.acts.write 0 0 exScale } exCanvas
        = [exScale]
    ∧ baseList exHeap exCanvas = [exRotate]
    ∧ exScale ≠ exRotate := by
  decide

/-- Claim C3: for every canvas reachable from a well-formed state by any
sequence of primitive calls, DPI queries, Resets and flag toggles, the
first `len(Base)` elements of the log are value-equal to `Base`, element
for element and in order; and a further step changes the log only by
leaving it unchanged, appending one record, or (for Reset) truncating it
back to exactly the base. -/
theorem c3_baseline_prefix_invariant (h : Heap) (c : Canvas) (hwf : WF h c)
    (ops : List Op) :
    (logList (runOps (h, c) ops).1 (runOps (h, c) ops).2).take
        (runOps (h, c) ops).2.Base.len
      = baseList (runOps (h, c) ops).1 (runOps (h, c) ops).2
    ∧ ∀ op : Op,
        logList (step (runOps (h, c) ops) op).1 (step (runOps (h, c) ops) op).2
            = logList (runOps (h, c) ops).1 (runOps (h, c) ops).2
        ∨ (∃ a : Action,
            logList (step (runOps (h, c) ops) op).1 (step (runOps (h, c) ops) op).2
              = logList (runOps (h, c) ops).1 (runOps (h, c) ops).2 ++ [a])
        ∨ logList (step (runOps (h, c) ops) op).1 (step (runOps (h, c) ops) op).2
            = baseList (runOps (h, c) ops).1 (runOps (h, c) ops).2 := by
  have hw := WF_runOps ops (h, c) hwf
  exact ⟨hw.2.2.2.2.2.2.2, fun op => step_logList_shape (runOps (h, c) ops) op hw⟩

/-- Witness for C3 at a concrete input: a push, a DPI query, a flag toggle
and a reset starting from `exHeap`'s baseline. -/
theorem c3_baseline_prefix_invariant_witness :
    WF exHeap exCanvas ∧
    ((logList (runOps (exHeap, exCanvas) [Op.push none, Op.dpiQuery none,
          Op.setKeepCaller true, Op.reset]).1
        (runOps (exHeap, exCanvas) [Op.push none, Op.dpiQuery none,
          Op.setKeepCaller true, Op.reset]).2).take
        (runOps (exHeap, exCanvas) [Op.push none, Op.dpiQuery none,
          Op.setKeepCaller true, Op.reset]).2.Base.len
      = baseList (runOps (exHeap, exCanvas) [Op.push none, Op.dpiQuery none,
          Op.setKeepCaller true, Op.reset]).1
        (runOps (exHeap, exCanvas) [Op.push none, Op.dpiQuery none,
          Op.setKeepCaller true, Op.reset]).2
    ∧ ∀ op : Op,
        logList (step (runOps (exHeap, exCanvas) [Op.push none, Op.dpiQuery none,
              Op.setKeepCaller true, Op.reset]) op).1
            (step (runOps (exHeap, exCanvas) [Op.push none, Op.dpiQuery none,
              Op.setKeepCaller true, Op.reset]) op).2
            = logList (runOps (exHeap, exCanvas) [Op.push none, Op.dpiQuery none,
                Op.setKeepCaller true, Op.reset]).1
              (runOps (exHeap, exCanvas) [Op.push none, Op.dpiQuery none,
                Op.setKeepCaller true, Op.reset]).2
        ∨ (∃ a : Action,
            logList (step (runOps (exHeap, exCanvas) [Op.push none, Op.dpiQuery none,
                Op.setKeepCaller true, Op.reset]) op).1
              (step (runOps (exHeap, exCanvas) [Op.push none, Op.dpiQuery none,
                Op.setKeepCaller true, Op.reset]) op).2
              = logList (runOps (exHeap, exCanvas) [Op.push none, Op.dpiQuery none,
                  Op.setKeepCaller true, Op.reset]).1
                (runOps (exHeap, exCanvas) [Op.push none, Op.dpiQuery none,
                  Op.setKeepCaller true, Op.reset]).2 ++ [a])
        ∨ logList (step (runOps (exHeap, exCanvas) [Op.push none, Op.dpiQuery none,
              Op.setKeepCaller true, Op.reset]) op).1
            (step (runOps (exHeap, exCanvas) [Op.push none, Op.dpiQuery none,
              Op.setKeepCaller true, Op.reset]) op).2
            = baseList (runOps (exHeap, exCanvas) [Op.push none, Op.dpiQuery none,
                Op.setKeepCaller true, Op.reset]).1
              (runOps (exHeap, exCanvas) [Op.push none, Op.dpiQuery none,
                Op.setKeepCaller true, Op.reset]).2) :=
  ⟨by decide, c3_baseline_prefix_invariant exHeap exCanvas (by decide)
    [Op.push none, Op.dpiQuery none, Op.setKeepCaller true, Op.reset]⟩

/-- Claim C4: every primitive call appends exactly one record of the
corresponding variant, and the claim further says its rendering matches
the call's arguments under §4.2's `<prefix><Name>(<args>)` shape.  The
single-append part holds (it is `appendA_logList`, used by C3/C6), and the
rendering matches for nine variants — but a `Push()` call's record renders
with the reflective struct-dump prefix instead of an empty prefix, so the
rendering part fails for `Push`, `Pop` and `DPI` calls.  This theorem
evaluates a `Push()` call (the failing input) and a `Rotate` call (a
conforming one) on the empty-baseline canvas. -/
theorem c4_single_append_rendering_bug :
    logList (step (exHeap0, exCanvas0) (Op.push none)).1
        (step (exHeap0, exCanvas0) (Op.push none)).2
      = logList exHeap0 exCanvas0 ++ [Action.push CallRec.zero]
    ∧ (logList (step (exHeap0, exCanvas0) (Op.push none)).1
        (step (exHeap0, exCanvas0) (Op.push none)).2).length
      = (logList exHeap0 exCanvas0).length + 1
    ∧ (Action.push CallRec.zero).VgCall
        (step (exHeap0, exCanvas0) (Op.push none)).1
      = "&\x7b\x7b%!s(bool=false)  %!s(int=0)\x7d\x7dPush()"
    ∧ (Action.push CallRec.zero).VgCall
        (step (exHeap0, exCanvas0) (Op.push none)).1 ≠ "Push()"
    ∧ logList (step (exHeap0, exCanvas0) (Op.rotate none ⟨"0.72"⟩)).1
        (step (exHeap0, exCanvas0) (Op.rotate none ⟨"0.72"⟩)).2
      = [Action.rotate CallRec.zero ⟨"0.72"⟩]
    ∧ (Action.rotate CallRec.zero ⟨"0.72"⟩).VgCall
        (step (exHeap0, exCanvas0) (Op.rotate none ⟨"0.72"⟩)).1
      = "Rotate(0.72)" := by
  decide

/-- Claim C5 (amended): after any sequence of operations, `Reset()` makes
the log equal to `base` — same length, same content — and a second
`Reset()` with no intervening appends leaves the log (header and contents)
unchanged; appends performed after the reset can never change `base`'s
elements.  (The claim's stronger assertion that the log's storage is then
independent of `base` is refuted separately: when the log never
reallocated, `Reset` leaves it on `base`'s own backing array, and the
post-reset appends are harmless only because they write past
`len(base)`.) -/
theorem c5_reset_correct_idempotent (h : Heap) (c : Canvas) (hwf : WF h c)
    (ops : List Op) :
    logList (step (runOps (h, c) ops) Op.reset).1
        (step (runOps (h, c) ops) Op.reset).2
      = baseList (runOps (h, c) ops).1 (runOps (h, c) ops).2
    ∧ logList (step (step (runOps (h, c) ops) Op.reset) Op.reset).1
        (step (step (runOps (h, c) ops) Op.reset) Op.reset).2
      = logList (step (runOps (h, c) ops) Op.reset).1
          (step (runOps (h, c) ops) Op.reset).2
    ∧ (step (step (runOps (h, c) ops) Op.reset) Op.reset).2.Actions
      = (step (runOps (h, c) ops) Op.reset).2.Actions
    ∧ ∀ ops2 : List Op,
        baseList (runOps (step (runOps (h, c) ops) Op.reset) ops2).1
            (runOps (step (runOps (h, c) ops) Op.reset) ops2).2
          = baseList (step (runOps (h, c) ops) Op.reset).1
              (step (runOps (h, c) ops) Op.reset).2 := by
  have hw := WF_runOps ops (h, c) hwf
  have hwr : WF (step (runOps (h, c) ops) Op.reset).1
      (step (runOps (h, c) ops) Op.reset).2 := WF_step _ Op.reset hw
  refine ⟨?_, ?_, ?_, ?_⟩
  · exact reset_logList (runOps (h, c) ops).1 (runOps (h, c) ops).2 hw
  · have h1 := reset_logList (step (runOps (h, c) ops) Op.reset).1
      (step (runOps (h, c) ops) Op.reset).2 hwr
    have h2 := reset_baseList (runOps (h, c) ops).1 (runOps (h, c) ops).2 hw
    have h3 := reset_logList (runOps (h, c) ops).1 (runOps (h, c) ops).2 hw
    exact h1.trans (h2.trans h3.symm)
  · rfl
  · intro ops2
    exact (runOps_baseList ops2 (step (runOps (h, c) ops) Op.reset) hwr).1

/-- Witness for the amended C5 at a concrete input: a scale and a push on
`exHeap`'s baseline, then the two resets. -/
theorem c5_reset_correct_idempotent_witness :
    WF exHeap exCanvas ∧
    (logList (step (runOps (exHeap, exCanvas) [Op.scale none ⟨"1"⟩ ⟨"2"⟩,
          Op.push none]) Op.reset).1
        (step (runOps (exHeap, exCanvas) [Op.scale none ⟨"1"⟩ ⟨"2"⟩,
          Op.push none]) Op.reset).2
      = baseList (runOps (exHeap, exCanvas) [Op.scale none ⟨"1"⟩ ⟨"2"⟩,
          Op.push none]).1
        (runOps (exHeap, exCanvas) [Op.scale none ⟨"1"⟩ ⟨"2"⟩, Op.push none]).2
    ∧ logList (step (step (runOps (exHeap, exCanvas) [Op.scale none ⟨"1"⟩ ⟨"2"⟩,
          Op.push none]) Op.reset) Op.reset).1
        (step (step (runOps (exHeap, exCanvas) [Op.scale none ⟨"1"⟩ ⟨"2"⟩,
          Op.push none]) Op.reset) Op.reset).2
      = logList (step (runOps (exHeap, exCanvas) [Op.scale none ⟨"1"⟩ ⟨"2"⟩,
            Op.push none]) Op.reset).1
          (step (runOps (exHeap, exCanvas) [Op.scale none ⟨"1"⟩ ⟨"2"⟩,
            Op.push none]) Op.reset).2
    ∧ (step (step (runOps (exHeap, exCanvas) [Op.scale none ⟨"1"⟩ ⟨"2"⟩,
          Op.push none]) Op.reset) Op.reset).2.Actions
      = (step (runOps (exHeap, exCanvas) [Op.scale none ⟨"1"⟩ ⟨"2"⟩,
          Op.push none]) Op.reset).2.Actions
    ∧ ∀ ops2 : List Op,
        baseList (runOps (step (runOps (exHeap, exCanvas)
              [Op.scale none ⟨"1"⟩ ⟨"2"⟩, Op.push none]) Op.reset) ops2).1
            (runOps (step (runOps (exHeap, exCanvas)
              [Op.scale none ⟨"1"⟩ ⟨"2"⟩, Op.push none]) Op.reset) ops2).2
          = baseList (step (runOps (exHeap, exCanvas)
                [Op.scale none ⟨"1"⟩ ⟨"2"⟩, Op.push none]) Op.reset).1
              (step (runOps (exHeap, exCanvas)
                [Op.scale none ⟨"1"⟩ ⟨"2"⟩, Op.push none]) Op.reset).2) :=
  ⟨by decide, c5_reset_correct_idempotent exHeap exCanvas (by decide)
    [Op.scale none ⟨"1"⟩ ⟨"2"⟩, Op.push none]⟩

/-- Claim C5 counterexample: the claim says `Reset()` leaves the log with
storage independent of `base`.  Start from `exHeap2`, whose baseline slice
has one live record and spare capacity; one `Push()` then appends in place
(no reallocation), and `Reset()` leaves the log on the very backing array
`base` uses — the same array identifier — so the storage is shared, not
independent.  (The log still equals the base element-wise.) -/
theorem c5_reset_shared_storage_counterexample :
    (step (runOps (exHeap2, exCanvas2) [Op.push none]) Op.reset).2.Actions.id
      = (step (runOps (exHeap2, exCanvas2) [Op.push none]) Op.reset).2.Base.id
    ∧ logList (step (runOps (exHeap2, exCanvas2) [Op.push none]) Op.reset).1
        (step (runOps (exHeap2, exCanvas2) [Op.push none]) Op.reset).2
      = baseList (step (runOps (exHeap2, exCanvas2) [Op.push none]) Op.reset).1
        (step (runOps (exHeap2, exCanvas2) [Op.push none]) Op.reset).2 := by
  decide

/-- Claim C6: `DPI()` is a mixed query/command — at every well-formed
state it appends exactly one `DPI` record to the log and returns the
stored resolution; and immediately after construction with resolution `d`
it returns `d`. -/
theorem c6_dpi_mixed_query_command (h : Heap) (c : Canvas)
    (site : Option (String × Int)) (hwf : WF h c) :
    (Canvas.DPI h c site).2.2 = c.Resolution
    ∧ logList (Canvas.DPI h c site).1 (Canvas.DPI h c site).2.1
        = logList h c ++ [stamped c site (Action.dpi CallRec.zero)]
    ∧ (∃ cr : CallRec, stamped c site (Action.dpi CallRec.zero) = Action.dpi cr)
    ∧ ∀ (d : GoFloat) (b : ActSlice) (h2 : Heap) (s2 : Option (String × Int)),
        (Canvas.DPI h2 (New d b) s2).2.2 = d := by
  refine ⟨rfl, appendA_logList h c site _ hwf, ?_, fun d b h2 s2 => rfl⟩
  by_cases hk : c.KeepCaller
  · exact ⟨CallRec.fromSite site, by simp [stamped, hk, Action.withCR]⟩
  · exact ⟨CallRec.zero, by simp [stamped, hk]⟩

/-- Witness for C6 at a concrete input. -/
theorem c6_dpi_mixed_query_command_witness :
    WF exHeap exCanvas ∧
    ((Canvas.DPI exHeap exCanvas none).2.2 = exCanvas.Resolution
    ∧ logList (Canvas.DPI exHeap exCanvas none).1
        (Canvas.DPI exHeap exCanvas none).2.1
        = logList exHeap exCanvas
          ++ [stamped exCanvas none (Action.dpi CallRec.zero)]
    ∧ (∃ cr : CallRec,
        stamped exCanvas none (Action.dpi CallRec.zero) = Action.dpi cr)
    ∧ ∀ (d : GoFloat) (b : ActSlice) (h2 : Heap) (s2 : Option (String × Int)),
        (Canvas.DPI h2 (New d b) s2).2.2 = d) :=
  ⟨by decide, c6_dpi_mixed_query_command exHeap exCanvas none (by decide)⟩

/-- Claim C9: every primitive call, the DPI query and Reset leave
`Resolution`, `KeepCaller` and the `Base` field (both the slice header
and the elements it denotes) unchanged; only the `Actions` log is
modified. -/
theorem c9_frame_property (s : Heap × Canvas) (op : Op) (hwf : WF s.1 s.2)
    (hop : ∀ b : Bool, op ≠ Op.setKeepCaller b) :
    (step s op).2.Resolution = s.2.Resolution
    ∧ (step s op).2.KeepCaller = s.2.KeepCaller
    ∧ (step s op).2.Base = s.2.Base
    ∧ baseList (step s op).1 (step s op).2 = baseList s.1 s.2 :=
  ⟨(step_frame s op).2, step_keepCaller s op hop, (step_frame s op).1,
    step_baseList s op hwf⟩

/-- Witness for C9 at a concrete input: a DPI query on `exHeap`. -/
theorem c9_frame_property_witness :
    (WF exHeap exCanvas ∧ ∀ b : Bool, Op.dpiQuery none ≠ Op.setKeepCaller b) ∧
    ((step (exHeap, exCanvas) (Op.dpiQuery none)).2.Resolution
        = exCanvas.Resolution
    ∧ (step (exHeap, exCanvas) (Op.dpiQuery none)).2.KeepCaller
        = exCanvas.KeepCaller
    ∧ (step (exHeap, exCanvas) (Op.dpiQuery none)).2.Base = exCanvas.Base
    ∧ baseList (step (exHeap, exCanvas) (Op.dpiQuery none)).1
        (step (exHeap, exCanvas) (Op.dpiQuery none)).2
      = baseList exHeap exCanvas) :=
  ⟨⟨by decide, by decide⟩,
    c9_frame_property (exHeap, exCanvas) (Op.dpiQuery none) (by decide)
      (by decide)⟩

/-- Claim C10: `FillString` snapshots the font at call time — the record
stores the font's `Name()` string and `Size` value, not the font object;
two fonts agreeing on name and size produce identical results, so later
changes to the caller's font value cannot affect the recorded entry. -/
theorem c10_fillString_snapshots_font (h : Heap) (c : Canvas)
    (site : Option (String × Int)) (f : Font) (x y : GoFloat) (str : String)
    (hwf : WF h c) :
    logList (Canvas.FillString h c site f x y str).1
        (Canvas.FillString h c site f x y str).2
      = logList h c
        ++ [stamped c site
              (Action.fillString CallRec.zero f.Name f.Size x y str)]
    ∧ ∀ g : Font, g.Name = f.Name → g.Size = f.Size →
        Canvas.FillString h c site g x y str
          = Canvas.FillString h c site f x y str := by
  refine ⟨appendA_logList h c site _ hwf, ?_⟩
  intro g hn hs
  unfold Canvas.FillString
  rw [hn, hs]

/-- Witness for C10 at a concrete input: the package test's font. -/
theorem c10_fillString_snapshots_font_witness :
    WF exHeap exCanvas ∧
    (logList (Canvas.FillString exHeap exCanvas none ⟨"Foo", ⟨"12"⟩⟩ ⟨"0"⟩
          ⟨"10"⟩ "Bar").1
        (Canvas.FillString exHeap exCanvas none ⟨"Foo", ⟨"12"⟩⟩ ⟨"0"⟩
          ⟨"10"⟩ "Bar").2
      = logList exHeap exCanvas
        ++ [stamped exCanvas none
              (Action.fillString CallRec.zero (Font.Name ⟨"Foo", ⟨"12"⟩⟩)
                (Font.Size ⟨"Foo", ⟨"12"⟩⟩) ⟨"0"⟩ ⟨"10"⟩ "Bar")]
    ∧ ∀ g : Font, g.Name = Font.Name ⟨"Foo", ⟨"12"⟩⟩ →
        g.Size = Font.Size ⟨"Foo", ⟨"12"⟩⟩ →
        Canvas.FillString exHeap exCanvas none g ⟨"0"⟩ ⟨"10"⟩ "Bar"
          = Canvas.FillString exHeap exCanvas none ⟨"Foo", ⟨"12"⟩⟩ ⟨"0"⟩
              ⟨"10"⟩ "Bar") :=
  ⟨by decide, c10_fillString_snapshots_font exHeap exCanvas none
    ⟨"Foo", ⟨"12"⟩⟩ ⟨"0"⟩ ⟨"10"⟩ "Bar" (by decide)⟩

/-- Claim C8: records appended with capture disabled should render with no
file/line prefix, and records appended with capture enabled should render
beginning with `<file>:<line> `; toggling only affects later records.
This holds for nine variants (shown here for `SetWidth`, and the
only-later-records part for `Rotate`), but an enabled-capture `Push()`
record renders with the reflective struct dump instead of beginning with
its `<file>:<line> ` stamp — the same `%s`-verb slip as in C1.  This
theorem evaluates the code at those inputs. -/
theorem c8_stamp_toggling_push_bug :
    logList (runOps (exHeap0, exCanvas0) [Op.setKeepCaller true,
        Op.setLineWidth (some ("file.go", 7)) ⟨"2"⟩]).1
      (runOps (exHeap0, exCanvas0) [Op.setKeepCaller true,
        Op.setLineWidth (some ("file.go", 7)) ⟨"2"⟩]).2
      = [Action.setWidth ⟨true, "file.go", 7⟩ ⟨"2"⟩]
    ∧ (Action.setWidth ⟨true, "file.go", 7⟩ ⟨"2"⟩).VgCall
        (runOps (exHeap0, exCanvas0) [Op.setKeepCaller true,
          Op.setLineWidth (some ("file.go", 7)) ⟨"2"⟩]).1
      = "file.go:7 SetWidth(2)"
    ∧ logList (runOps (exHeap0, exCanvas0) [Op.setKeepCaller true,
        Op.push (some ("file.go", 7))]).1
      (runOps (exHeap0, exCanvas0) [Op.setKeepCaller true,
        Op.push (some ("file.go", 7))]).2
      = [Action.push ⟨true, "file.go", 7⟩]
    ∧ (Action.push ⟨true, "file.go", 7⟩).VgCall
        (runOps (exHeap0, exCanvas0) [Op.setKeepCaller true,
          Op.push (some ("file.go", 7))]).1
      = "&\x7b\x7b%!s(bool=true) file.go %!s(int=7)\x7d\x7dPush()"
    ∧ (Action.push ⟨true, "file.go", 7⟩).VgCall
        (runOps (exHeap0, exCanvas0) [Op.setKeepCaller true,
          Op.push (some ("file.go", 7))]).1
      ≠ "file.go:7 Push()"
    ∧ logList (runOps (exHeap0, exCanvas0)
        [Op.rotate (some ("file.go", 3)) ⟨"0.72"⟩]).1
      (runOps (exHeap0, exCanvas0)
        [Op.rotate (some ("file.go", 3)) ⟨"0.72"⟩]).2
      = [Action.rotate CallRec.zero ⟨"0.72"⟩]
    ∧ (Action.rotate CallRec.zero ⟨"0.72"⟩).VgCall
        (runOps (exHeap0, exCanvas0)
          [Op.rotate (some ("file.go", 3)) ⟨"0.72"⟩]).1
      = "Rotate(0.72)"
    ∧ (logList (runOps (exHeap0, exCanvas0)
          [Op.rotate (some ("file.go", 3)) ⟨"0.72"⟩, Op.setKeepCaller true,
            Op.push (some ("file.go", 9))]).1
        (runOps (exHeap0, exCanvas0)
          [Op.rotate (some ("file.go", 3)) ⟨"0.72"⟩, Op.setKeepCaller true,
            Op.push (some ("file.go", 9))]).2).getD 0 default
      = Action.rotate CallRec.zero ⟨"0.72"⟩ := by
  decide

theorem Store.arr_alloc_len {α : Type} (s : Store α) (xs : List α) :
    (s.alloc xs).1.arr s.mem.length = xs :=
  Store.arr_alloc_new s xs

/-- Claim C7: `SetLineDash` copies the dash slice, and `Stroke` and `Fill`
copy the path slice, into the record they construct: the record holds a
freshly allocated array whose contents are the call-time snapshot of the
caller's slice, so a caller writing into their own slice after the call
changes neither the recorded entry's stored contents nor its rendering. -/
theorem c7_defensive_copies (h : Heap) (c : Canvas)
    (site : Option (String × Int)) (d : LenRef) (offs : GoFloat)
    (p : PathRef) (hwf : WF h c)
    (hd : d.id < h.lens.mem.length) (hp : p.id < h.paths.mem.length) :
    (logList (Canvas.SetLineDash h c site d offs).1
        (Canvas.SetLineDash h c site d offs).2
      = logList h c ++ [stamped c site (Action.setLineDash CallRec.zero
          ⟨h.lens.mem.length, (readLens h d).length⟩ offs)]
    ∧ (∀ (i : Nat) (v : GoFloat),
        readLens { (Canvas.SetLineDash h c site d offs).1 with
            lens := (Canvas.SetLineDash h c site d offs).1.lens.write d.id i v }
          ⟨h.lens.mem.length, (readLens h d).length⟩ = readLens h d)
    ∧ ∀ (i : Nat) (v : GoFloat) (cr : CallRec),
        (Action.setLineDash cr ⟨h.lens.mem.length, (readLens h d).length⟩
            offs).VgCall
          { (Canvas.SetLineDash h c site d offs).1 with
            lens := (Canvas.SetLineDash h c site d offs).1.lens.write d.id i v }
        = (Action.setLineDash cr ⟨h.lens.mem.length, (readLens h d).length⟩
            offs).VgCall (Canvas.SetLineDash h c site d offs).1)
    ∧ (logList (Canvas.Stroke h c site p).1 (Canvas.Stroke h c site p).2
      = logList h c ++ [stamped c site (Action.stroke CallRec.zero
          ⟨h.paths.mem.length, (readPath h p).length⟩)]
    ∧ (∀ (i : Nat) (v : PathComp),
        readPath { (Canvas.Stroke h c site p).1 with
            paths := (Canvas.Stroke h c site p).1.paths.write p.id i v }
          ⟨h.paths.mem.length, (readPath h p).length⟩ = readPath h p)
    ∧ ∀ (i : Nat) (v : PathComp) (cr : CallRec),
        (Action.stroke cr
            ⟨h.paths.mem.length, (readPath h p).length⟩).VgCall
          { (Canvas.Stroke h c site p).1 with
            paths := (Canvas.Stroke h c site p).1.paths.write p.id i v }
        = (Action.stroke cr
            ⟨h.paths.mem.length, (readPath h p).length⟩).VgCall
            (Canvas.Stroke h c site p).1)
    ∧ (logList (Canvas.Fill h c site p).1 (Canvas.Fill h c site p).2
      = logList h c ++ [stamped c site (Action.fill CallRec.zero
          ⟨h.paths.mem.length, (readPath h p).length⟩)]
    ∧ (∀ (i : Nat) (v : PathComp),
        readPath { (Canvas.Fill h c site p).1 with
            paths := (Canvas.Fill h c site p).1.paths.write p.id i v }
          ⟨h.paths.mem.length, (readPath h p).length⟩ = readPath h p)
    ∧ ∀ (i : Nat) (v : PathComp) (cr : CallRec),
        (Action.fill cr
            ⟨h.paths.mem.length, (readPath h p).length⟩).VgCall
          { (Canvas.Fill h c site p).1 with
            paths := (Canvas.Fill h c site p).1.paths.write p.id i v }
        = (Action.fill cr
            ⟨h.paths.mem.length, (readPath h p).length⟩).VgCall
            (Canvas.Fill h c site p).1) := by
  have hsnapL : readLens (Canvas.SetLineDash h c site d offs).1
      ⟨h.lens.mem.length, (readLens h d).length⟩ = readLens h d := by
    show ((h.lens.alloc (readLens h d)).1.arr h.lens.mem.length).take
        (readLens h d).length = readLens h d
    rw [Store.arr_alloc_len h.lens (readLens h d)]
    exact List.take_length _
  have hmutL : ∀ (i : Nat) (v : GoFloat),
      readLens { (Canvas.SetLineDash h c site d offs).1 with
          lens := (Canvas.SetLineDash h c site d offs).1.lens.write d.id i v }
        ⟨h.lens.mem.length, (readLens h d).length⟩ = readLens h d := by
    intro i v
    show (((h.lens.alloc (readLens h d)).1.write d.id i v).arr
        h.lens.mem.length).take (readLens h d).length = readLens h d
    simp only [Store.write]
    rw [Store.arr_setArr_ne _ _ _ _ (Nat.ne_of_lt hd).symm,
      Store.arr_alloc_len h.lens (readLens h d)]
    exact List.take_length _
  have hsnapS : readPath (Canvas.Stroke h c site p).1
      ⟨h.paths.mem.length, (readPath h p).length⟩ = readPath h p := by
    show ((h.paths.alloc (readPath h p)).1.arr h.paths.mem.length).take
        (readPath h p).length = readPath h p
    rw [Store.arr_alloc_len h.paths (readPath h p)]
    exact List.take_length _
  have hmutS : ∀ (i : Nat) (v : PathComp),
      readPath { (Canvas.Stroke h c site p).1 with
          paths := (Canvas.Stroke h c site p).1.paths.write p.id i v }
        ⟨h.paths.mem.length, (readPath h p).length⟩ = readPath h p := by
    intro i v
    show (((h.paths.alloc (readPath h p)).1.write p.id i v).arr
        h.paths.mem.length).take (readPath h p).length = readPath h p
    simp only [Store.write]
    rw [Store.arr_setArr_ne _ _ _ _ (Nat.ne_of_lt hp).symm,
      Store.arr_alloc_len h.paths (readPath h p)]
    exact List.take_length _
  have hsnapF : readPath (Canvas.Fill h c site p).1
      ⟨h.paths.mem.length, (readPath h p).length⟩ = readPath h p := by
    show ((h.paths.alloc (readPath h p)).1.arr h.paths.mem.length).take
        (readPath h p).length = readPath h p
    rw [Store.arr_alloc_len h.paths (readPath h p)]
    exact List.take_length _
  have hmutF : ∀ (i : Nat) (v : PathComp),
      readPath { (Canvas.Fill h c site p).1 with
          paths := (Canvas.Fill h c site p).1.paths.write p.id i v }
        ⟨h.paths.mem.length, (readPath h p).length⟩ = readPath h p := by
    intro i v
    show (((h.paths.alloc (readPath h p)).1.write p.id i v).arr
        h.paths.mem.length).take (readPath h p).length = readPath h p
    simp only [Store.write]
    rw [Store.arr_setArr_ne _ _ _ _ (Nat.ne_of_lt hp).symm,
      Store.arr_alloc_len h.paths (readPath h p)]
    exact List.take_length _
  refine ⟨⟨?_, hmutL, ?_⟩, ⟨?_, hmutS, ?_⟩, ?_, hmutF, ?_⟩
  · exact appendA_logList
      { h with lens := (h.lens.alloc (readLens h d)).1 } c site _ hwf
  · intro i v cr
    simp only [Action.VgCall]
    rw [hmutL i v, hsnapL]
  · exact appendA_logList
      { h with paths := (h.paths.alloc (readPath h p)).1 } c site _ hwf
  · intro i v cr
    simp only [Action.VgCall]
    rw [hmutS i v, hsnapS]
  · exact appendA_logList
      { h with paths := (h.paths.alloc (readPath h p)).1 } c site _ hwf
  · intro i v cr
    simp only [Action.VgCall]
    rw [hmutF i v, hsnapF]

/-- Witness for C7 at a concrete input: the caller-owned dash and path
arrays of `exHeap2`. -/
theorem c7_defensive_copies_witness :
    (WF exHeap2 exCanvas2 ∧ exDash.id < exHeap2.lens.mem.length ∧
      exPath.id < exHeap2.paths.mem.length) ∧
    ((logList (Canvas.SetLineDash exHeap2 exCanvas2 none exDash exOffs).1
        (Canvas.SetLineDash exHeap2 exCanvas2 none exDash exOffs).2
      = logList exHeap2 exCanvas2 ++ [stamped exCanvas2 none (Action.setLineDash CallRec.zero
          ⟨exHeap2.lens.mem.length, (readLens exHeap2 exDash).length⟩ exOffs)]
    ∧ (∀ (i : Nat) (v : GoFloat),
        readLens { (Canvas.SetLineDash exHeap2 exCanvas2 none exDash exOffs).1 with
            lens := (Canvas.SetLineDash exHeap2 exCanvas2 none exDash exOffs).1.lens.write exDash.id i v }
          ⟨exHeap2.lens.mem.length, (readLens exHeap2 exDash).length⟩ = readLens exHeap2 exDash)
    ∧ ∀ (i : Nat) (v : GoFloat) (cr : CallRec),
        (Action.setLineDash cr ⟨exHeap2.lens.mem.length, (readLens exHeap2 exDash).length⟩
            exOffs).VgCall
          { (Canvas.SetLineDash exHeap2 exCanvas2 none exDash exOffs).1 with
            lens := (Canvas.SetLineDash exHeap2 exCanvas2 none exDash exOffs).1.lens.write exDash.id i v }
        = (Action.setLineDash cr ⟨exHeap2.lens.mem.length, (readLens exHeap2 exDash).length⟩
            exOffs).VgCall (Canvas.SetLineDash exHeap2 exCanvas2 none exDash exOffs).1)
    ∧ (logList (Canvas.Stroke exHeap2 exCanvas2 none exPath).1 (Canvas.Stroke exHeap2 exCanvas2 none exPath).2
      = logList exHeap2 exCanvas2 ++ [stamped exCanvas2 none (Action.stroke CallRec.zero
          ⟨exHeap2.paths.mem.length, (readPath exHeap2 exPath).length⟩)]
    ∧ (∀ (i : Nat) (v : PathComp),
        readPath { (Canvas.Stroke exHeap2 exCanvas2 none exPath).1 with
            paths := (Canvas.Stroke exHeap2 exCanvas2 none exPath).1.paths.write exPath.id i v }
          ⟨exHeap2.paths.mem.length, (readPath exHeap2 exPath).length⟩ = readPath exHeap2 exPath)
    ∧ ∀ (i : Nat) (v : PathComp) (cr : CallRec),
        (Action.stroke cr
            ⟨exHeap2.paths.mem.length, (readPath exHeap2 exPath).length⟩).VgCall
          { (Canvas.Stroke exHeap2 exCanvas2 none exPath).1 with
            paths := (Canvas.Stroke exHeap2 exCanvas2 none exPath).1.paths.write exPath.id i v }
        = (Action.stroke cr
            ⟨exHeap2.paths.mem.length, (readPath exHeap2 exPath).length⟩).VgCall
            (Canvas.Stroke exHeap2 exCanvas2 none exPath).1)
    ∧ (logList (Canvas.Fill exHeap2 exCanvas2 none exPath).1 (Canvas.Fill exHeap2 exCanvas2 none exPath).2
      = logList exHeap2 exCanvas2 ++ [stamped exCanvas2 none (Action.fill CallRec.zero
          ⟨exHeap2.paths.mem.length, (readPath exHeap2 exPath).length⟩)]
    ∧ (∀ (i : Nat) (v : PathComp),
        readPath { (Canvas.Fill exHeap2 exCanvas2 none exPath).1 with
            paths := (Canvas.Fill exHeap2 exCanvas2 none exPath).1.paths.write exPath.id i v }
          ⟨exHeap2.paths.mem.length, (readPath exHeap2 exPath).length⟩ = readPath exHeap2 exPath)
    ∧ ∀ (i : Nat) (v : PathComp) (cr : CallRec),
        (Action.fill cr
            ⟨exHeap2.paths.mem.length, (readPath exHeap2 exPath).length⟩).VgCall
          { (Canvas.Fill exHeap2 exCanvas2 none exPath).1 with
            paths := (Canvas.Fill exHeap2 exCanvas2 none exPath).1.paths.write exPath.id i v }
        = (Action.fill cr
            ⟨exHeap2.paths.mem.length, (readPath exHeap2 exPath).length⟩).VgCall
            (Canvas.Fill exHeap2 exCanvas2 none exPath).1)) :=
  ⟨⟨by decide, by decide, by decide⟩,
    c7_defensive_copies exHeap2 exCanvas2 none exDash exOffs exPath
      (by decide) (by decide) (by decide)⟩
